import Mathlib

/-!
Shallow embedding of the EmailSummarizer batch pipeline
(`main.py`, `gmail_utils.py`, `sheets_utils.py`, `summarizer.py`).

External collaborators (Gmail API, Sheets API, the Groq model, base64
decoding) are modelled as explicit environment parameters recording, for
each call the code makes, whether it succeeds and with which value.
Python exceptions are modelled with `Except` / explicit outcome values.
-/

namespace EmailSummarizer

/-! ## MIME part trees and `extract_body` (`gmail_utils.py` lines 158-194) -/

mutual

/-- A node of the Gmail message payload tree: the optional `mimeType` key,
the optional `body.data` key (base64 text, `none` when absent), and the
list under the `parts` key (empty when absent). -/
inductive MimePart : Type
| mk : Option String → Option String → MimePartList → MimePart

/-- A list of sub-parts of a `MimePart`. -/
inductive MimePartList : Type
| nil : MimePartList
| cons : MimePart → MimePartList → MimePartList

end

/-- The `mimeType` field of a part. -/
def MimePart.mimeType : MimePart → Option String
| .mk mt _ _ => mt

/-- The `body.data` field of a part. -/
def MimePart.dat : MimePart → Option String
| .mk _ d _ => d

/-- The `parts` field of a part. -/
def MimePart.children : MimePart → MimePartList
| .mk _ _ ps => ps

mutual

/-- `get_body_recursive` from `gmail_utils.extract_body`: the `nonlocal body`
variable is threaded explicitly; the returned `Bool` is the Python return
value (`True` stops the whole traversal).  `decode` models
`base64.urlsafe_b64decode(data).decode('utf-8')`, with `none` for a raised
decoding error (caught and logged by the source). -/
def getBodyRec (decode : String → Option String) (p : MimePart) (body : String) :
    String × Bool :=
  match p with
  | .mk mt dat ps =>
  if mt = some "text/plain" then
    match dat with
    | some d =>
      if d = "" then getBodyRecList decode ps body
      else
        match decode d with
        | some s => (s, true)
        | none => getBodyRecList decode ps body
    | none => getBodyRecList decode ps body
  else if mt = some "text/html" ∧ body = "" then
    match dat with
    | some d =>
      if d = "" then getBodyRecList decode ps body
      else
        match decode d with
        | some s => getBodyRecList decode ps s
        | none => getBodyRecList decode ps body
    | none => getBodyRecList decode ps body
  else getBodyRecList decode ps body
termination_by structural p

/-- The `for subpart in part['parts']` loop of `get_body_recursive`. -/
def getBodyRecList (decode : String → Option String) (ps : MimePartList) (body : String) :
    String × Bool :=
  match ps with
  | .nil => (body, false)
  | .cons p ps =>
    match getBodyRec decode p body with
    | (b, true) => (b, true)
    | (b, false) => getBodyRecList decode ps b
termination_by structural ps

end

/-- Python `str.split()` with no argument, over the characters of the string:
maximal runs of non-whitespace characters, empty pieces dropped.  `acc` holds
the current run, reversed. -/
def splitWsAux : List Char → List Char → List (List Char)
| [], acc => if acc.isEmpty then [] else [acc.reverse]
| c :: cs, acc =>
  if c.isWhitespace then
    if acc.isEmpty then splitWsAux cs []
    else acc.reverse :: splitWsAux cs []
  else splitWsAux cs (c :: acc)

/-- Python `s.split()`. -/
def pySplitWs (s : String) : List String :=
  (splitWsAux s.data []).map String.mk

/-- Python `' '.join(body.split())`: split on whitespace runs (dropping empty
pieces, as `str.split()` does) and re-join with single spaces. -/
def normalizeWs (s : String) : String :=
  String.intercalate " " (pySplitWs s)

/-- Python `body[:2000]`: keep the first 2000 characters (code points). -/
def truncate2000 (s : String) : String :=
  String.mk (s.data.take 2000)

/-- `gmail_utils.extract_body`: run the recursive descent with `body = ""`,
then normalize whitespace and truncate if non-empty, then substitute the
placeholder for an empty result. -/
def extract_body (decode : String → Option String) (payload : MimePart) : String :=
  let body := (getBodyRec decode payload "").1
  let body2 := if body ≠ "" then truncate2000 (normalizeWs body) else body
  if body2 = "" then "No readable content found" else body2

/-! ## Mailbox gateway (`gmail_utils.py` lines 197-253) -/

/-- An error raised by a Gmail API call: `HttpError` with a status, or any
other exception. -/
inductive GErr : Type
| http : Nat → GErr
| other : GErr
deriving DecidableEq

/-- A provider-side message as returned by `users().messages().get`:
its id, its `payload.headers` list of (name, value) pairs, and its
`payload` part tree. -/
structure GMsg where
  id : String
  headers : List (String × String)
  payload : MimePart

/-- Python `next((h['value'] for h in headers if h['name'] == name), dflt)`. -/
def headerValue (name dflt : String) (headers : List (String × String)) : String :=
  match headers.find? fun h => h.1 = name with
  | some h => h.2
  | none => dflt

/-- One entry of the list returned by `fetch_unread_emails`: the tuple
`(msg_id, sender, subject, body)`. -/
structure Fetched where
  msgId : String
  sender : String
  subject : String
  body : String
deriving DecidableEq

/-- The per-message extraction inside the `fetch_unread_emails` loop. -/
def extractMsg (decode : String → Option String) (m : GMsg) : Fetched :=
  ⟨m.id, headerValue "From" "Unknown" m.headers,
    headerValue "Subject" "No Subject" m.headers,
    extract_body decode m.payload⟩

/-- The Gmail collaborator state for one run: the mailbox's unread messages
in provider listing order, whether the `list` call raises, and whether the
`get` call for a given id raises. -/
structure GmailEnv where
  unread : List GMsg
  listErr : Option GErr
  getErr : String → Option GErr

/-- `gmail_utils.fetch_unread_emails`: list up to `max_results` unread ids
(the provider honours `maxResults` by truncating its listing), get each
message and extract its fields.  Any exception — from the `list` call or
from any `get` call mid-loop — is caught and the function returns `[]`. -/
def fetch_unread_emails (decode : String → Option String) (env : GmailEnv)
    (max_results : Nat) : List Fetched :=
  match env.listErr with
  | some _ => []
  | none =>
    let msgs := env.unread.take max_results
    if msgs.isEmpty then []
    else if msgs.any fun m => (env.getErr m.id).isSome then []
    else msgs.map (extractMsg decode)

/-- The `for msg_id in msg_ids` loop of `gmail_utils.mark_as_read`, which sits
inside a single `try`: returns (ids on which `modify` was attempted, ids
successfully modified, whether an exception was raised).  The exception is
caught and logged, so `mark_as_read` itself never raises; but the first
failing `modify` aborts the loop. -/
def markLoop (ok : String → Bool) : List String → List String × List String × Bool
| [] => ([], [], false)
| i :: rest =>
  if ok i then
    let r := markLoop ok rest
    (i :: r.1, i :: r.2.1, r.2.2)
  else ([i], [], true)

/-- `gmail_utils.mark_as_read`, observed through the set of ids whose unread
label was actually removed.  Total: the surrounding `except` swallows any
failure. -/
def mark_as_read (ok : String → Bool) (msg_ids : List String) : List String :=
  (markLoop ok msg_ids).2.1

/-! ## Ledger writer (`sheets_utils.py` lines 53-101) -/

/-- An error raised by a Sheets API call: `HttpError` with a status, or a
non-`HttpError` exception (e.g. a transient network failure). -/
inductive SheetsErr : Type
| http : Nat → SheetsErr
| network : SheetsErr
deriving DecidableEq

/-- The Python exception that `append_to_sheet` lets escape to its caller. -/
inductive PyExc : Type
| valueError : PyExc
| permissionError : PyExc
| http : Nat → PyExc
| network : PyExc
deriving DecidableEq

/-- Re-raising a Sheets API error unchanged. -/
def rawExc : SheetsErr → PyExc
| .http s => .http s
| .network => .network

/-- The fixed header row written by `append_to_sheet`. -/
def headerRow : List String :=
  ["Timestamp", "Sender", "Subject", "Email", "Summary"]

/-- The `values().get(range=A1:E1)` response: `none` models a response
without a `values` key (empty header range). -/
def headerValues (sheet : List (List String)) : Option (List (List String)) :=
  match sheet with
  | [] => none
  | r :: _ => if r = [] then none else some [r.take 5]

/-- The ledger collaborator state for one run: the configured spreadsheet id,
the current rows of the store, the outcomes of the header-range `get`, the
header `append` and the data `append` calls, and the wall-clock timestamp
`datetime.now().strftime(...)` used for the row. -/
structure SheetsEnv where
  spreadsheetId : Option String
  sheet : List (List String)
  getHeaderErr : Option SheetsErr
  headerAppendErr : Option SheetsErr
  dataAppendErr : Option SheetsErr
  timestamp : String

/-- The header check-then-create block of `append_to_sheet` (lines 61-79):
read `A1:E1` and, when it holds no values, append the fixed header row.
The inner `except HttpError` turns a 403 into `PermissionError` and
re-raises any other `HttpError`; a non-`HttpError` failure escapes raw. -/
def headerStep (env : SheetsEnv) : Except PyExc (List (List String)) :=
  match env.getHeaderErr with
  | some (.http s) => if s = 403 then .error .permissionError else .error (.http s)
  | some .network => .error .network
  | none =>
    if (headerValues env.sheet).isNone then
      match env.headerAppendErr with
      | some (.http s) => if s = 403 then .error .permissionError else .error (.http s)
      | some .network => .error .network
      | none => .ok (env.sheet ++ [headerRow])
    else .ok env.sheet

/-- The success path of the header check-then-create step, i.e. the spec's
`ensure_header()`: write the fixed header row only when the header range is
empty. -/
def ensure_header (sheet : List (List String)) : List (List String) :=
  if (headerValues sheet).isNone then sheet ++ [headerRow] else sheet

/-- `sheets_utils.append_to_sheet`: raise `ValueError` when `SPREADSHEET_ID`
is unset; run the header step; then append the data row
`[timestamp, senders, subjects, emails, summary]`.  The outer
`except Exception` logs and re-raises, so every failure propagates. -/
def append_to_sheet (env : SheetsEnv) (senders subjects emails summary : String) :
    Except PyExc (List (List String)) :=
  if env.spreadsheetId = none then .error .valueError
  else
    match headerStep env with
    | .error e => .error e
    | .ok sheet1 =>
      match env.dataAppendErr with
      | some e => .error (rawExc e)
      | none => .ok (sheet1 ++ [[env.timestamp, senders, subjects, emails, summary]])

/-- All collaborator calls made by `append_to_sheet` succeed. -/
def appendOk (env : SheetsEnv) : Bool :=
  env.spreadsheetId.isSome && env.getHeaderErr.isNone && env.dataAppendErr.isNone &&
    (!(headerValues env.sheet).isNone || env.headerAppendErr.isNone)

/-! ## Summarization function (`summarizer.py` lines 14-41) -/

/-- Python `str.strip()`: drop leading and trailing whitespace characters. -/
def pyStrip (s : String) : String :=
  String.mk (((s.data.dropWhile Char.isWhitespace).reverse.dropWhile Char.isWhitespace).reverse)

/-- `summarizer.summarize_email`: `llm` models the Groq chat-completion call,
returning either the model's text or a raised exception's message.  On
success the content is stripped; on any exception the function returns the
literal error string instead of raising. -/
def summarize_email (llm : String → Except String String) (text : String) : String :=
  match llm text with
  | .ok content => pyStrip content
  | .error e => "Error generating summary: " ++ e

/-! ## Batch pipeline (`main.py` lines 26-79 and 138-185) -/

/-- The outcome of one `process_unread_emails` invocation: the
`{"message": "No unread emails found", "count": 0}` response, the
`{"status": "success", ...}` response, or the `HTTPException(500, str(e))`
raised to the caller. -/
inductive RunResult : Type
| NO_MESSAGES : RunResult
| SUCCESS : Nat → List String → String → RunResult
| FAILED : PyExc → RunResult
deriving DecidableEq

/-- The externally observable side effects of one pipeline invocation. -/
structure Effects where
  summarizeCalls : Nat
  appendCalls : Nat
  finalSheet : List (List String)
  markAttempts : List String
  markedRead : List String
deriving DecidableEq

/-- Everything one pipeline invocation consumes: the base64 decoder, the
Gmail and Sheets collaborator states, the summarization model, and the
per-id outcome of the `modify` (mark-read) call. -/
structure PipelineEnv where
  decode : String → Option String
  gmail : GmailEnv
  sheets : SheetsEnv
  llm : String → Except String String
  markOk : String → Bool

/-- The combined prompt built in `main.py`:
`"\n\n".join(f"Sender: {s}\nSubject: {u}\nBody: {b}" ...)` over the zipped
field lists. -/
def combinedText (senders subjects bodies : List String) : String :=
  String.intercalate "\n\n" ((senders.zip (subjects.zip bodies)).map
    fun t => "Sender: " ++ t.1 ++ "\nSubject: " ++ t.2.1 ++ "\nBody: " ++ t.2.2)

/-- `main.process_unread_emails` (the `/process-unread-emails` handler):
fetch (with the default `max_results = 10`), short-circuit on an empty
batch, summarize once, append one row, then mark the batch read.  The
`except` clause re-raises any pipeline exception as `HTTPException(500)`,
modelled by `RunResult.FAILED`. -/
def process_unread_emails (env : PipelineEnv) : RunResult × Effects :=
  let emails := fetch_unread_emails env.decode env.gmail 10
  if emails.isEmpty then
    (.NO_MESSAGES, ⟨0, 0, env.sheets.sheet, [], []⟩)
  else
    let msg_ids := emails.map Fetched.msgId
    let senders := emails.map Fetched.sender
    let subjects := emails.map Fetched.subject
    let bodies := emails.map Fetched.body
    let summary := summarize_email env.llm (combinedText senders subjects bodies)
    match append_to_sheet env.sheets (String.intercalate "\n" senders)
        (String.intercalate "\n" subjects) (String.intercalate "\n\n" bodies) summary with
    | .error e => (.FAILED e, ⟨1, 1, env.sheets.sheet, [], []⟩)
    | .ok sheet1 =>
      let mr := markLoop env.markOk msg_ids
      (.SUCCESS emails.length senders summary, ⟨1, 1, sheet1, mr.1, mr.2.1⟩)

/-- `main.auto_summarize_job` (the scheduler tick): the same steps as
`process_unread_emails`, with every exception caught and logged; only the
side effects are observable. -/
def auto_summarize_job (env : PipelineEnv) : Effects :=
  let emails := fetch_unread_emails env.decode env.gmail 10
  if emails.isEmpty then ⟨0, 0, env.sheets.sheet, [], []⟩
  else
    let msg_ids := emails.map Fetched.msgId
    let senders := emails.map Fetched.sender
    let subjects := emails.map Fetched.subject
    let bodies := emails.map Fetched.body
    let summary := summarize_email env.llm (combinedText senders subjects bodies)
    match append_to_sheet env.sheets (String.intercalate "\n" senders)
        (String.intercalate "\n" subjects) (String.intercalate "\n\n" bodies) summary with
    | .error _ => ⟨1, 1, env.sheets.sheet, [], []⟩
    | .ok sheet1 =>
      let mr := markLoop env.markOk msg_ids
      ⟨1, 1, sheet1, mr.1, mr.2.1⟩

/-- The batch fetched by one pipeline invocation. -/
def fetchedOf (env : PipelineEnv) : List Fetched :=
  fetch_unread_emails env.decode env.gmail 10

/-- The sender list of the batch, in fetch order. -/
def sendersOf (env : PipelineEnv) : List String :=
  (fetchedOf env).map Fetched.sender

/-- The subject list of the batch, in fetch order. -/
def subjectsOf (env : PipelineEnv) : List String :=
  (fetchedOf env).map Fetched.subject

/-- The body list of the batch, in fetch order. -/
def bodiesOf (env : PipelineEnv) : List String :=
  (fetchedOf env).map Fetched.body

/-- The message-id list of the batch, in fetch order. -/
def idsOf (env : PipelineEnv) : List String :=
  (fetchedOf env).map Fetched.msgId

/-- The summary value of the run (model output or embedded error text). -/
def summaryOf (env : PipelineEnv) : String :=
  summarize_email env.llm (combinedText (sendersOf env) (subjectsOf env) (bodiesOf env))

/-- The ledger row a successful run appends. -/
def rowOf (env : PipelineEnv) (summary : String) : List String :=
  [env.sheets.timestamp, String.intercalate "\n" (sendersOf env),
    String.intercalate "\n" (subjectsOf env),
    String.intercalate "\n\n" (bodiesOf env), summary]

/-- The unread messages left in the mailbox after a run that marked
`marked` read. -/
def remainingUnread (g : GmailEnv) (marked : List String) : List GMsg :=
  g.unread.filter fun m => !(marked.contains m.id)

/-! ## Spec-side characterization of `extract_body`

`firstPlain` and `firstHtml` follow the spec's words ("preferring the first
plain-text leaf found, falling back to the first HTML leaf"): the content of
the first `text/plain` part, in depth-first pre-order, whose data decodes;
and the first `text/html` part whose data decodes to a non-empty string. -/

mutual

/-- Content of the first plain-text part (pre-order) whose data decodes. -/
def firstPlain (decode : String → Option String) (p : MimePart) : Option String :=
  match p with
  | .mk mt dat ps =>
    if mt = some "text/plain" then
      match dat with
      | some d =>
        if d = "" then firstPlainList decode ps
        else
          match decode d with
          | some s => some s
          | none => firstPlainList decode ps
      | none => firstPlainList decode ps
    else firstPlainList decode ps
termination_by structural p

/-- `firstPlain` over a list of parts. -/
def firstPlainList (decode : String → Option String) (ps : MimePartList) : Option String :=
  match ps with
  | .nil => none
  | .cons p ps =>
    match firstPlain decode p with
    | some s => some s
    | none => firstPlainList decode ps
termination_by structural ps

end

mutual

/-- Content of the first HTML part (pre-order) whose data decodes to a
non-empty string. -/
def firstHtml (decode : String → Option String) (p : MimePart) : Option String :=
  match p with
  | .mk mt dat ps =>
    if mt = some "text/html" then
      match dat with
      | some d =>
        if d = "" then firstHtmlList decode ps
        else
          match decode d with
          | some s => if s = "" then firstHtmlList decode ps else some s
          | none => firstHtmlList decode ps
      | none => firstHtmlList decode ps
    else firstHtmlList decode ps
termination_by structural p

/-- `firstHtml` over a list of parts. -/
def firstHtmlList (decode : String → Option String) (ps : MimePartList) : Option String :=
  match ps with
  | .nil => none
  | .cons p ps =>
    match firstHtml decode p with
    | some h => some h
    | none => firstHtmlList decode ps
termination_by structural ps

end

/-- The leaf `extract_body` ends up using: the first decoding plain-text
part, else the first non-empty-decoding HTML part. -/
def chosenLeaf (decode : String → Option String) (p : MimePart) : Option String :=
  match firstPlain decode p with
  | some s => some s
  | none => firstHtml decode p

mutual

theorem firstHtml_ne (decode : String → Option String) (p : MimePart) (h : String)
    (hh : firstHtml decode p = some h) : h ≠ "" := by
  cases p with
  | mk mt dat ps =>
    rw [firstHtml.eq_def] at hh
    dsimp only at hh
    repeat' split at hh
    all_goals first
      | exact firstHtmlList_ne decode ps h hh
      | (cases hh; assumption)

theorem firstHtmlList_ne (decode : String → Option String) (ps : MimePartList) (h : String)
    (hh : firstHtmlList decode ps = some h) : h ≠ "" := by
  cases ps with
  | nil => exact Option.noConfusion hh
  | cons p ps =>
    rw [firstHtmlList.eq_def] at hh
    dsimp only at hh
    split at hh
    · rename_i h0 hp
      cases hh
      exact firstHtml_ne decode p h hp
    · exact firstHtmlList_ne decode ps h hh

end

mutual

theorem getBodyRec_eq (decode : String → Option String) (p : MimePart) (body : String) :
    getBodyRec decode p body =
      match firstPlain decode p with
      | some s => (s, true)
      | none => (if body = "" then (firstHtml decode p).getD "" else body, false) := by
  cases p with
  | mk mt dat ps =>
    rw [getBodyRec.eq_def, firstPlain.eq_def, firstHtml.eq_def]
    dsimp only
    by_cases hmt : mt = some "text/plain"
    · subst hmt
      simp only [reduceIte]
      cases dat with
      | none =>
        simp only
        exact getBodyRecList_eq decode ps body
      | some d =>
        by_cases hd : d = ""
        · simp only [hd, reduceIte]
          exact getBodyRecList_eq decode ps body
        · simp only [hd, reduceIte, if_neg hd]
          cases hdec : decode d with
          | some s => simp
          | none => exact getBodyRecList_eq decode ps body
    · by_cases hmh : mt = some "text/html"
      · subst hmh
        simp only [reduceIte]
        by_cases hb : body = ""
        · subst hb
          simp only [reduceIte]
          cases dat with
          | none =>
            rw [getBodyRecList_eq decode ps]
            simp
          | some d =>
            by_cases hd : d = ""
            · simp only [hd, reduceIte]
              rw [getBodyRecList_eq decode ps]
              simp
            · simp only [if_neg hd]
              cases hdec : decode d with
              | some s =>
                dsimp only
                rw [getBodyRecList_eq decode ps]
                by_cases hs : s = ""
                · simp [hs]
                · simp [hs]
              | none =>
                dsimp only
                rw [getBodyRecList_eq decode ps]
                simp
        · simp only [if_neg hb]
          rw [getBodyRecList_eq decode ps]
          simp [hb]
      · simp only [if_neg hmt, if_neg hmh]
        have : ¬(mt = some "text/html" ∧ body = "") := fun hc => hmh hc.1
        simp only [if_neg this]
        exact getBodyRecList_eq decode ps body

theorem getBodyRecList_eq (decode : String → Option String) (ps : MimePartList) (body : String) :
    getBodyRecList decode ps body =
      match firstPlainList decode ps with
      | some s => (s, true)
      | none => (if body = "" then (firstHtmlList decode ps).getD "" else body, false) := by
  cases ps with
  | nil =>
    rw [getBodyRecList.eq_def, firstPlainList.eq_def, firstHtmlList.eq_def]
    dsimp only
    by_cases hb : body = "" <;> simp [hb]
  | cons p ps =>
    rw [getBodyRecList.eq_def, firstPlainList.eq_def, firstHtmlList.eq_def]
    dsimp only
    rw [getBodyRec_eq decode p body]
    cases hfp : firstPlain decode p with
    | some s => simp
    | none =>
      simp only
      rw [getBodyRecList_eq decode ps]
      cases hfh : firstHtml decode p with
      | some h =>
        have hne : h ≠ "" := firstHtml_ne decode p h hfh
        by_cases hb : body = "" <;> simp [hb, hne]
      | none =>
        by_cases hb : body = "" <;> simp [hb]

end

theorem truncate2000_length (s : String) : (truncate2000 s).length ≤ 2000 := by
  have : (truncate2000 s).length = (s.data.take 2000).length := rfl
  rw [this]
  exact List.length_take_le 2000 s.data

/-- C9: for every message part tree, body extraction performs a recursive
descent preferring the first plain-text leaf whose data decodes and falling
back to the first HTML leaf decoding to non-empty text only if no plain-text
leaf decodes; the chosen content is whitespace-collapsed
(`' '.join(body.split())`) and truncated to at most 2000 characters, and a
fixed placeholder is returned when no readable content is found.  `decode`
abstracts `base64.urlsafe_b64decode(...).decode('utf-8')`. -/
theorem extract_body_characterization (decode : String → Option String) (p : MimePart) :
    extract_body decode p =
      (match chosenLeaf decode p with
       | none => "No readable content found"
       | some s =>
         if truncate2000 (normalizeWs s) = "" then "No readable content found"
         else truncate2000 (normalizeWs s)) ∧
    (extract_body decode p).length ≤ 2000 := by
  have hmain : extract_body decode p =
      (match chosenLeaf decode p with
       | none => "No readable content found"
       | some s =>
         if truncate2000 (normalizeWs s) = "" then "No readable content found"
         else truncate2000 (normalizeWs s)) := by
    unfold extract_body chosenLeaf
    rw [getBodyRec_eq]
    cases hfp : firstPlain decode p with
    | some s =>
      dsimp only
      by_cases hs : s = ""
      · subst hs
        have h0 : truncate2000 (normalizeWs "") = "" := rfl
        simp [h0]
      · simp [hs]
    | none =>
      cases hfh : firstHtml decode p with
      | some h =>
        have hne := firstHtml_ne decode p h hfh
        dsimp only
        simp [hne]
      | none =>
        dsimp only
        simp
  refine ⟨hmain, ?_⟩
  rw [hmain]
  cases chosenLeaf decode p with
  | none => decide
  | some s =>
    dsimp only
    by_cases h0 : truncate2000 (normalizeWs s) = ""
    · simp only [h0, if_pos rfl]
      decide
    · simp only [h0, if_neg h0]
      exact truncate2000_length (normalizeWs s)

/-! ## Joining and splitting row fields -/

theorem mk_data (s : String) : String.mk s.data = s := by
  cases s
  rfl

theorem map_mk_data (l : List String) : (l.map String.data).map String.mk = l := by
  rw [List.map_map]
  have h : String.mk ∘ String.data = id := funext mk_data
  rw [h, List.map_id]

theorem intercalate_go_data (s : String) :
    ∀ (as : List String) (acc : String),
      (String.intercalate.go acc s as).data =
        acc.data ++ (as.map fun t => s.data ++ t.data).flatten
  | [], acc => by
    rw [String.intercalate.go]
    simp
  | a :: as, acc => by
    rw [String.intercalate.go]
    rw [intercalate_go_data s as (acc ++ s ++ a)]
    simp

theorem intercalate_cons_flatten (sep : List α) :
    ∀ (x : List α) (xs : List (List α)),
      List.intercalate sep (x :: xs) = x ++ (xs.map fun t => sep ++ t).flatten
  | x, [] => by simp [List.intercalate]
  | x, y :: ys => by
    unfold List.intercalate
    rw [List.intersperse_cons_cons]
    have h := intercalate_cons_flatten sep y ys
    unfold List.intercalate at h
    simp only [List.flatten_cons]
    rw [h]
    simp

theorem intercalate_data (s : String) (l : List String) :
    (String.intercalate s l).data = List.intercalate s.data (l.map String.data) := by
  cases l with
  | nil => simp [String.intercalate, List.intercalate]
  | cons a as =>
    show (String.intercalate.go a s as).data = _
    rw [intercalate_go_data s as a]
    rw [List.map_cons]
    rw [intercalate_cons_flatten s.data a.data (as.map String.data)]
    rw [List.map_map]
    rfl

theorem cons_map_flatten (sep : List α) (c : List α) (cs : List (List α)) :
    (((c :: cs).map fun t => sep ++ t).flatten) = sep ++ List.intercalate sep (c :: cs) := by
  rw [intercalate_cons_flatten]
  simp

theorem intersperse_nil_cons (b : List α) (t : List (List α)) :
    ∃ cs, List.intersperse ([] : List α) (b :: t) = b :: cs := by
  cases t with
  | nil => exact ⟨[], rfl⟩
  | cons c cs => exact ⟨[] :: List.intersperse [] (c :: cs), List.intersperse_cons_cons _ _ _ _⟩

theorem intercalate_doubled (sep : List α) :
    ∀ l : List (List α),
      List.intercalate sep (List.intersperse [] l) = List.intercalate (sep ++ sep) l
  | [] => by simp [List.intercalate]
  | [a] => by simp [List.intercalate]
  | a :: b :: t => by
    rw [List.intersperse_cons_cons]
    rw [intercalate_cons_flatten sep a ([] :: List.intersperse [] (b :: t))]
    obtain ⟨cs, hcs⟩ := intersperse_nil_cons b t
    rw [hcs, List.map_cons, List.flatten_cons, ← hcs]
    rw [hcs, cons_map_flatten sep b cs, ← hcs]
    rw [intercalate_doubled sep (b :: t)]
    rw [intercalate_cons_flatten (sep ++ sep) a (b :: t)]
    rw [cons_map_flatten (sep ++ sep) b t]
    simp

theorem mem_intersperse_nil :
    ∀ {l : List (List α)} {y : List α}, y ∈ List.intersperse [] l → y = [] ∨ y ∈ l
  | [], y, h => by simp at h
  | [a], y, h => by
    simp at h
    exact Or.inr (by simp [h])
  | a :: b :: t, y, h => by
    rw [List.intersperse_cons_cons] at h
    simp only [List.mem_cons] at h
    rcases h with rfl | rfl | h
    · exact Or.inr (by simp)
    · exact Or.inl rfl
    · rcases mem_intersperse_nil h with h1 | h1
      · exact Or.inl h1
      · exact Or.inr (List.mem_cons_of_mem a h1)

theorem filter_intersperse_nil :
    ∀ (l : List (List α)), (∀ x ∈ l, x ≠ []) →
      (List.intersperse [] l).filter (fun c => !c.isEmpty) = l
  | [], _ => rfl
  | [a], h => by
    have ha : a ≠ [] := h a (by simp)
    simp [List.filter, List.isEmpty_eq_false.mpr ha]
  | a :: b :: t, h => by
    rw [List.intersperse_cons_cons]
    have ha : (!a.isEmpty) = true := by
      simp [List.isEmpty_eq_false.mpr (h a (by simp))]
    have ht : ∀ x ∈ b :: t, x ≠ [] := fun x hx => h x (by simp [hx])
    simp only [List.filter_cons, ha, List.isEmpty_nil, Bool.not_true, reduceIte,
      Bool.false_eq_true, if_false, if_true]
    rw [filter_intersperse_nil (b :: t) ht]

theorem data_ne_nil_of_ne_empty {s : String} (h : s ≠ "") : s.data ≠ [] := by
  intro hd
  apply h
  have := mk_data s
  rw [hd] at this
  exact this.symm

theorem splitOn_newline_join (l : List String) (hl : l ≠ [])
    (h : ∀ s ∈ l, '\n' ∉ s.data) :
    (((String.intercalate "\n" l).data).splitOn '\n').map String.mk = l := by
  rw [intercalate_data]
  have hd : ("\n" : String).data = ['\n'] := rfl
  rw [hd]
  have hx : ∀ t ∈ l.map String.data, '\n' ∉ t := by
    intro t ht
    obtain ⟨s, hs, rfl⟩ := List.mem_map.mp ht
    exact h s hs
  have hls : l.map String.data ≠ [] := by simpa using hl
  rw [List.splitOn_intercalate (l.map String.data) '\n' hx hls]
  exact map_mk_data l

theorem splitOn_blankline_join (l : List String) (hl : l ≠ [])
    (h : ∀ s ∈ l, '\n' ∉ s.data) (hne : ∀ s ∈ l, s ≠ "") :
    ((((String.intercalate "\n\n" l).data).splitOn '\n').filter
      (fun c => !c.isEmpty)).map String.mk = l := by
  rw [intercalate_data]
  have hd : ("\n\n" : String).data = ['\n'] ++ ['\n'] := rfl
  rw [hd, ← intercalate_doubled ['\n'] (l.map String.data)]
  have hx : ∀ t ∈ List.intersperse [] (l.map String.data), '\n' ∉ t := by
    intro t ht
    rcases mem_intersperse_nil ht with h1 | h1
    · subst h1; simp
    · obtain ⟨s, hs, rfl⟩ := List.mem_map.mp h1
      exact h s hs
  have hls : List.intersperse [] (l.map String.data) ≠ [] := by
    cases hc : l.map String.data with
    | nil => simp [hc] at hl; exact absurd (by simpa using hc) hl
    | cons b t =>
      obtain ⟨cs, hcs⟩ := intersperse_nil_cons b t
      rw [hcs]
      simp
  rw [List.splitOn_intercalate (List.intersperse [] (l.map String.data)) '\n' hx hls]
  rw [filter_intersperse_nil (l.map String.data) ?hnn]
  · exact map_mk_data l
  case hnn =>
    intro x hx2
    obtain ⟨s, hs, rfl⟩ := List.mem_map.mp hx2
    exact data_ne_nil_of_ne_empty (hne s hs)

/-! ## Pipeline unfolding lemmas -/

theorem process_of_empty (env : PipelineEnv) (h : fetchedOf env = []) :
    process_unread_emails env = (.NO_MESSAGES, ⟨0, 0, env.sheets.sheet, [], []⟩) ∧
    auto_summarize_job env = ⟨0, 0, env.sheets.sheet, [], []⟩ := by
  rw [fetchedOf] at h
  constructor
  · rw [process_unread_emails]
    simp [h]
  · rw [auto_summarize_job]
    simp [h]

theorem process_of_nonempty (env : PipelineEnv) (hk : fetchedOf env ≠ []) :
    process_unread_emails env =
      match append_to_sheet env.sheets (String.intercalate "\n" (sendersOf env))
          (String.intercalate "\n" (subjectsOf env))
          (String.intercalate "\n\n" (bodiesOf env)) (summaryOf env) with
      | .error e => (.FAILED e, ⟨1, 1, env.sheets.sheet, [], []⟩)
      | .ok sheet1 =>
        (.SUCCESS (fetchedOf env).length (sendersOf env) (summaryOf env),
          ⟨1, 1, sheet1, (markLoop env.markOk (idsOf env)).1,
            (markLoop env.markOk (idsOf env)).2.1⟩) := by
  rw [fetchedOf] at hk
  rw [process_unread_emails]
  have hne : (fetch_unread_emails env.decode env.gmail 10).isEmpty = false := by
    simp [List.isEmpty_eq_false, hk]
  simp only [hne, Bool.false_eq_true, if_false]
  rfl

theorem append_to_sheet_of_ok (env : SheetsEnv) (h : appendOk env = true)
    (a b c d : String) :
    append_to_sheet env a b c d =
      .ok (ensure_header env.sheet ++ [[env.timestamp, a, b, c, d]]) := by
  rw [appendOk] at h
  simp only [Bool.and_eq_true, Bool.or_eq_true] at h
  obtain ⟨⟨⟨h1, h2⟩, h3⟩, h4⟩ := h
  rw [append_to_sheet]
  have hsp : ¬env.spreadsheetId = none := by
    intro hq
    rw [hq] at h1
    exact Bool.noConfusion h1
  rw [if_neg hsp]
  have hget : env.getHeaderErr = none := Option.isNone_iff_eq_none.mp h2
  have hdata : env.dataAppendErr = none := Option.isNone_iff_eq_none.mp h3
  rw [headerStep, hget]
  dsimp only
  rw [ensure_header]
  by_cases hh : (headerValues env.sheet).isNone = true
  · have happ : env.headerAppendErr = none := by
      rcases h4 with h4 | h4
      · rw [hh] at h4
        exact Bool.noConfusion h4
      · exact Option.isNone_iff_eq_none.mp h4
    rw [if_pos hh, happ, hdata]
    simp [hh]
  · rw [if_neg hh, hdata]
    simp [hh]

theorem markLoop_marked (ok : String → Bool) :
    ∀ ids : List String, (markLoop ok ids).2.1 = ids.takeWhile ok
  | [] => rfl
  | i :: rest => by
    rw [markLoop, List.takeWhile_cons]
    by_cases hi : ok i = true
    · simp only [hi, if_true]
      rw [markLoop_marked ok rest]
    · simp [hi]

theorem markLoop_attempts (ok : String → Bool) :
    ∀ ids : List String,
      (markLoop ok ids).1 = ids.takeWhile ok ++ (ids.dropWhile ok).take 1
  | [] => rfl
  | i :: rest => by
    rw [markLoop, List.takeWhile_cons, List.dropWhile_cons]
    by_cases hi : ok i = true
    · simp only [hi, if_true]
      rw [markLoop_attempts ok rest]
      simp
    · simp [hi]

theorem remainingUnread_nil (g : GmailEnv) : remainingUnread g [] = g.unread := by
  rw [remainingUnread]
  simp

theorem fetch_length_le (decode : String → Option String) (g : GmailEnv) (mr : Nat) :
    (fetch_unread_emails decode g mr).length ≤ mr := by
  rw [fetch_unread_emails]
  cases g.listErr with
  | some e => simp
  | none =>
    dsimp only
    by_cases h1 : (g.unread.take mr).isEmpty = true
    · simp [h1]
    · simp only [h1, Bool.false_eq_true, if_false]
      by_cases h2 : (g.unread.take mr).any (fun m => (g.getErr m.id).isSome) = true
      · simp [h2]
      · simp only [h2, Bool.false_eq_true, if_false]
        rw [List.length_map]
        exact List.length_take_le mr g.unread

/-! ## Concrete sample environments for witnesses -/

/-- A concrete base64 decoder for witnesses. -/
def decodeW : String → Option String := fun d =>
  if d = "D1" then some "body1" else if d = "D2" then some "body2" else none

/-- A concrete unread message. -/
def msgW1 : GMsg :=
  ⟨"id1", [("From", "sender1"), ("Subject", "subj1")],
    .mk (some "text/plain") (some "D1") .nil⟩

/-- A second concrete unread message. -/
def msgW2 : GMsg :=
  ⟨"id2", [("From", "sender2"), ("Subject", "subj2")],
    .mk (some "text/plain") (some "D2") .nil⟩

/-- Witness environment for C1: one unread message, `SPREADSHEET_ID` unset. -/
def envC1 : PipelineEnv :=
  ⟨decodeW, ⟨[msgW1], none, fun _ => none⟩, ⟨none, [], none, none, none, "t1"⟩,
   fun _ => .ok "S", fun _ => true⟩

/-- Witness environment for C2: an empty mailbox. -/
def envC2 : PipelineEnv :=
  ⟨decodeW, ⟨[], none, fun _ => none⟩, ⟨some "S", [], none, none, none, "t2"⟩,
   fun _ => .ok "S", fun _ => true⟩

/-- Witness environment for C10: the Gmail `list` call raises. -/
def envC10 : PipelineEnv :=
  ⟨decodeW, ⟨[msgW1], some GErr.other, fun _ => none⟩,
   ⟨some "S", [], none, none, none, "ta"⟩, fun _ => .ok "S", fun _ => true⟩

/-- Witness mailbox for C8. -/
def gC8 : GmailEnv := ⟨[msgW1, msgW2], none, fun _ => none⟩

/-! ## Claim theorems -/

/-- C1: for every batch of size k>0, if the ledger append raises, the run is
`FAILED`, zero mark-read calls are issued (`markAttempts` and `markedRead`
are empty, so mark-read never happens without a prior successful row write),
the batch remains entirely unread, and the failure is surfaced to the
invoker (`RunResult.FAILED` carries the exception re-raised as
`HTTPException(500)`). -/
theorem ledger_failure_aborts_run (env : PipelineEnv) (e : PyExc)
    (hk : fetchedOf env ≠ [])
    (happ : ∀ a b c d, append_to_sheet env.sheets a b c d = Except.error e) :
    process_unread_emails env = (RunResult.FAILED e, ⟨1, 1, env.sheets.sheet, [], []⟩) ∧
    remainingUnread env.gmail (process_unread_emails env).2.markedRead = env.gmail.unread := by
  have h1 := process_of_nonempty env hk
  rw [happ] at h1
  refine ⟨h1, ?_⟩
  rw [h1]
  exact remainingUnread_nil env.gmail

theorem ledger_failure_aborts_run_witness :
    fetchedOf envC1 ≠ [] ∧
    process_unread_emails envC1 = (RunResult.FAILED PyExc.valueError, ⟨1, 1, [], [], []⟩) :=
  ⟨by decide,
   (ledger_failure_aborts_run envC1 PyExc.valueError (by decide) (fun _ _ _ _ => rfl)).1⟩

/-- C2: when the fetch returns zero unread messages, both pipeline entry
points yield `NO_MESSAGES` with zero summarization calls, zero ledger
writes (no header initialization, store unchanged) and zero mark-read
calls, and the outcome is not an error. -/
theorem no_messages_no_side_effects (env : PipelineEnv) (h : fetchedOf env = []) :
    process_unread_emails env = (.NO_MESSAGES, ⟨0, 0, env.sheets.sheet, [], []⟩) ∧
    auto_summarize_job env = ⟨0, 0, env.sheets.sheet, [], []⟩ ∧
    ∀ e, (process_unread_emails env).1 ≠ RunResult.FAILED e := by
  obtain ⟨h1, h2⟩ := process_of_empty env h
  refine ⟨h1, h2, ?_⟩
  intro e
  rw [h1]
  intro hq
  exact RunResult.noConfusion hq

theorem no_messages_no_side_effects_witness :
    fetchedOf envC2 = [] ∧
    process_unread_emails envC2 = (.NO_MESSAGES, ⟨0, 0, [], [], []⟩) :=
  ⟨rfl, (no_messages_no_side_effects envC2 rfl).1⟩

/-- C5: the header check-then-create step writes the fixed header row only
when the designated header range is empty, so performing it twice against an
initially empty store leaves exactly one header row present. -/
theorem ensure_header_idempotent :
    ensure_header [] = [headerRow] ∧
    ensure_header (ensure_header []) = [headerRow] ∧
    (ensure_header (ensure_header [])).count headerRow = 1 ∧
    ∀ sheet : List (List String), (headerValues sheet).isSome = true →
      ensure_header sheet = sheet := by
  refine ⟨by decide, by decide, by decide, ?_⟩
  intro sheet hs
  cases hv : headerValues sheet with
  | none => rw [hv] at hs; exact Bool.noConfusion hs
  | some v => simp [ensure_header, hv]

theorem ensure_header_idempotent_witness :
    (headerValues [headerRow]).isSome = true ∧ ensure_header [headerRow] = [headerRow] :=
  ⟨by decide, ensure_header_idempotent.2.2.2 [headerRow] (by decide)⟩

/-- C8: `fetch_unread_emails` returns at most `max_results` messages
(and each pipeline invocation fetches at most the default 10), preserves the
provider's listing order (it is exactly the extraction map over the
provider's truncated listing when no call fails), and returns the empty
sequence rather than throwing when there are zero unread messages. -/
theorem fetch_unread_contract (decode : String → Option String) (g : GmailEnv) (mr : Nat) :
    (fetch_unread_emails decode g mr).length ≤ mr ∧
    (g.unread = [] → fetch_unread_emails decode g mr = []) ∧
    (g.listErr = none → (∀ m ∈ g.unread.take mr, g.getErr m.id = none) →
      fetch_unread_emails decode g mr = (g.unread.take mr).map (extractMsg decode)) ∧
    (∀ env : PipelineEnv, (fetchedOf env).length ≤ 10) := by
  refine ⟨fetch_length_le decode g mr, ?_, ?_, ?_⟩
  · intro h
    rw [fetch_unread_emails]
    cases g.listErr <;> simp [h]
  · intro h1 h2
    rw [fetch_unread_emails, h1]
    dsimp only
    by_cases he : (g.unread.take mr).isEmpty = true
    · rw [List.isEmpty_iff] at he
      simp [he]
    · simp only [Bool.not_eq_true] at he
      have hany : (g.unread.take mr).any (fun m => (g.getErr m.id).isSome) = false := by
        rw [List.any_eq_false]
        intro m hm
        rw [h2 m hm]
        simp
      simp [he, hany]
  · intro env
    rw [fetchedOf]
    exact fetch_length_le env.decode env.gmail 10

theorem fetch_unread_contract_witness :
    fetch_unread_emails decodeW gC8 1 = (gC8.unread.take 1).map (extractMsg decodeW) ∧
    (fetch_unread_emails decodeW gC8 1).length ≤ 1 :=
  ⟨(fetch_unread_contract decodeW gC8 1).2.2.1 rfl (by decide),
   (fetch_unread_contract decodeW gC8 1).1⟩

/-- C10 (implicit): any provider error during the unread fetch — a failing
`list` call or a failing per-message `get` — makes `fetch_unread_emails`
return the empty sequence, so the pipeline reports `NO_MESSAGES` with zero
side effects, indistinguishable from an empty mailbox, rather than
`FAILED`. -/
theorem fetch_error_masked_as_no_messages (env : PipelineEnv) (e : GErr)
    (h : env.gmail.listErr = some e) :
    fetchedOf env = [] ∧
    fetchedOf env = fetch_unread_emails env.decode ⟨[], none, env.gmail.getErr⟩ 10 ∧
    process_unread_emails env = (.NO_MESSAGES, ⟨0, 0, env.sheets.sheet, [], []⟩) ∧
    (∀ (decode : String → Option String) (g : GmailEnv) (mr : Nat) (m : GMsg),
      g.listErr = none → m ∈ g.unread.take mr → (g.getErr m.id).isSome = true →
      fetch_unread_emails decode g mr = []) := by
  have hf : fetchedOf env = [] := by
    rw [fetchedOf, fetch_unread_emails, h]
  refine ⟨hf, ?_, (process_of_empty env hf).1, ?_⟩
  · rw [hf, fetch_unread_emails]
    simp
  · intro decode g mr m hg hm hsome
    rw [fetch_unread_emails, hg]
    dsimp only
    have hne : (g.unread.take mr).isEmpty = false := by
      rw [List.isEmpty_eq_false]
      intro hq
      rw [hq] at hm
      exact List.not_mem_nil m hm
    have hany : (g.unread.take mr).any (fun m => (g.getErr m.id).isSome) = true :=
      List.any_eq_true.mpr ⟨m, hm, hsome⟩
    simp [hne, hany]

theorem fetch_error_masked_witness :
    envC10.gmail.listErr = some GErr.other ∧
    process_unread_emails envC10 = (.NO_MESSAGES, ⟨0, 0, [], [], []⟩) :=
  ⟨rfl, (fetch_error_masked_as_no_messages envC10 GErr.other rfl).2.2.1⟩

/-- Witness environment for C3: the model call fails. -/
def envC3 : PipelineEnv :=
  ⟨decodeW, ⟨[msgW1], none, fun _ => none⟩, ⟨some "S", [], none, none, none, "t3"⟩,
   fun _ => .error "boom", fun _ => true⟩

/-- C3: `summarize_email` never raises — it returns either the stripped
model output or the literal error text; when the model call fails, the
returned error text is the summary value, it is written to the ledger row,
and the run still counts as `SUCCESS`. -/
theorem summarization_degraded_still_success (env : PipelineEnv) (msg : String)
    (hk : fetchedOf env ≠ [])
    (hllm : ∀ t, env.llm t = Except.error msg)
    (hok : appendOk env.sheets = true) :
    process_unread_emails env =
      (.SUCCESS (fetchedOf env).length (sendersOf env)
         ("Error generating summary: " ++ msg),
       ⟨1, 1,
        ensure_header env.sheets.sheet ++
          [rowOf env ("Error generating summary: " ++ msg)],
        (markLoop env.markOk (idsOf env)).1, (markLoop env.markOk (idsOf env)).2.1⟩) ∧
    ∀ (llm : String → Except String String) (t : String),
      (∃ c, llm t = .ok c ∧ summarize_email llm t = pyStrip c) ∨
      (∃ s, llm t = .error s ∧
        summarize_email llm t = "Error generating summary: " ++ s) := by
  have hsum : summaryOf env = "Error generating summary: " ++ msg := by
    rw [summaryOf, summarize_email, hllm]
  have h1 := process_of_nonempty env hk
  rw [append_to_sheet_of_ok env.sheets hok] at h1
  dsimp only at h1
  rw [hsum] at h1
  refine ⟨?_, ?_⟩
  · rw [h1]
    rfl
  · intro llm t
    cases h : llm t with
    | ok c => exact Or.inl ⟨c, rfl, by rw [summarize_email, h]⟩
    | error s => exact Or.inr ⟨s, rfl, by rw [summarize_email, h]⟩

theorem summarization_degraded_witness :
    fetchedOf envC3 ≠ [] ∧ appendOk envC3.sheets = true ∧
    process_unread_emails envC3 =
      (.SUCCESS 1 ["sender1"] "Error generating summary: boom",
       ⟨1, 1,
        [headerRow, ["t3", "sender1", "subj1", "body1", "Error generating summary: boom"]],
        ["id1"], ["id1"]⟩) := by
  refine ⟨by decide, by decide, ?_⟩
  exact ((summarization_degraded_still_success envC3 "boom" (by decide)
    (fun _ => rfl) (by decide)).1).trans (by decide)

/-- C6 counterexample: `mark_as_read` is NOT per-id best effort as claimed —
the whole loop sits in one `try`, so a failure on one id prevents the
remaining ids from being attempted.  The claim "a failure to mark one
individual id does not prevent the remaining ids from being attempted" is
false: with ids `["id1", "id2"]` and the modify call failing on `"id1"`,
`"id2"` is never attempted. -/
theorem mark_read_per_id_counterexample :
    ¬ ∀ (ok : String → Bool) (ids : List String), ∀ i ∈ ids, i ∈ (markLoop ok ids).1 := by
  intro hcl
  have h := hcl (fun s => s == "id2") ["id1", "id2"] "id2" (by decide)
  revert h
  decide

/-- C6 amended: `mark_as_read` is best effort in the sense that a mark
failure never raises, never fails the run and never rolls back the ledger
write (the run is still `SUCCESS` and the appended row stays in the store
for every `markOk`); the ids actually marked are the longest prefix of the
batch on which `modify` succeeds, and the attempted ids stop at the first
failure — ids after it are not attempted, and no per-id report is
returned. -/
theorem mark_read_best_effort (env : PipelineEnv)
    (hk : fetchedOf env ≠ []) (hok : appendOk env.sheets = true) :
    (process_unread_emails env).1 =
      .SUCCESS (fetchedOf env).length (sendersOf env) (summaryOf env) ∧
    (process_unread_emails env).2.finalSheet =
      ensure_header env.sheets.sheet ++ [rowOf env (summaryOf env)] ∧
    (process_unread_emails env).2.markedRead = (idsOf env).takeWhile env.markOk ∧
    (process_unread_emails env).2.markAttempts =
      (idsOf env).takeWhile env.markOk ++ ((idsOf env).dropWhile env.markOk).take 1 ∧
    (∀ (ok : String → Bool) (ids : List String),
      mark_as_read ok ids = ids.takeWhile ok) := by
  have h1 := process_of_nonempty env hk
  rw [append_to_sheet_of_ok env.sheets hok] at h1
  dsimp only at h1
  refine ⟨?_, ?_, ?_, ?_, ?_⟩
  · rw [h1]
  · rw [h1]
    rfl
  · rw [h1]
    exact markLoop_marked env.markOk (idsOf env)
  · rw [h1]
    exact markLoop_attempts env.markOk (idsOf env)
  · intro ok ids
    rw [mark_as_read]
    exact markLoop_marked ok ids

/-- Witness environment for C6: two unread messages, `modify` failing on
the first id. -/
def envC6 : PipelineEnv :=
  ⟨decodeW, ⟨[msgW1, msgW2], none, fun _ => none⟩,
   ⟨some "S", [], none, none, none, "t6"⟩, fun _ => .ok "S6", fun s => s == "zzz"⟩

theorem mark_read_best_effort_witness :
    fetchedOf envC6 ≠ [] ∧ appendOk envC6.sheets = true ∧
    (process_unread_emails envC6).1 = .SUCCESS 2 ["sender1", "sender2"] "S6" ∧
    (process_unread_emails envC6).2.finalSheet =
      [headerRow, ["t6", "sender1\nsender2", "subj1\nsubj2", "body1\n\nbody2", "S6"]] ∧
    (process_unread_emails envC6).2.markedRead = [] ∧
    (process_unread_emails envC6).2.markAttempts = ["id1"] := by
  have h := mark_read_best_effort envC6 (by decide) (by decide)
  exact ⟨by decide, by decide, h.1.trans (by decide), h.2.1.trans (by decide),
    h.2.2.1.trans (by decide), h.2.2.2.1.trans (by decide)⟩

/-- The typed ledger failures the spec names, as the code represents them:
`PermissionError` for PermissionDenied and `ValueError` for
ConfigurationMissing; no exception class in the source corresponds to
TransientWriteError (such failures re-raise raw). -/
def specTypedLedgerFailure : PyExc → Bool
| .permissionError => true
| .valueError => true
| .http _ => false
| .network => false

/-- Environment for C7: header present, the data append itself fails with
HTTP 403. -/
def sheetsEnvC7 : SheetsEnv :=
  ⟨some "sid", [headerRow], none, none, some (.http 403), "t7"⟩

/-- C7 counterexample: a permission failure (HTTP 403) raised by the data
append propagates to the caller as the raw `HttpError`, not as one of the
typed failures — only the header check-then-create step converts 403 into
`PermissionError`.  So not every append failure is propagated as a typed
failure. -/
theorem append_untyped_failure_counterexample :
    append_to_sheet sheetsEnvC7 "a" "b" "c" "d" = .error (.http 403) ∧
    specTypedLedgerFailure (.http 403) = false := by
  exact ⟨rfl, rfl⟩

/-- C7 amended: every failure of the ledger append propagates to the caller
(nothing is swallowed: the result is an error exactly when some collaborator
call fails), but the typing is partial: a missing spreadsheet id raises
`ValueError`, an HTTP 403 in the header check or header write raises
`PermissionError`, while any failure of the data append itself — including
permission and transient network errors — propagates as the raw
exception. -/
theorem append_failure_propagation (env : SheetsEnv) (a b c d : String) :
    (env.spreadsheetId = none → append_to_sheet env a b c d = .error .valueError) ∧
    (env.spreadsheetId ≠ none → env.getHeaderErr = some (.http 403) →
      append_to_sheet env a b c d = .error .permissionError) ∧
    (env.spreadsheetId ≠ none → env.getHeaderErr = none →
      (headerValues env.sheet).isNone = true → env.headerAppendErr = some (.http 403) →
      append_to_sheet env a b c d = .error .permissionError) ∧
    (∀ er, env.spreadsheetId ≠ none → env.getHeaderErr = none →
      ((headerValues env.sheet).isNone = false ∨ env.headerAppendErr = none) →
      env.dataAppendErr = some er →
      append_to_sheet env a b c d = .error (rawExc er)) ∧
    ((∃ e, append_to_sheet env a b c d = Except.error e) ↔ appendOk env = false) := by
  refine ⟨?_, ?_, ?_, ?_, ?_, ?_⟩
  · intro h
    rw [append_to_sheet, if_pos h]
  · intro h1 h2
    simp [append_to_sheet, headerStep, h1, h2]
  · intro h1 h2 h3 h4
    simp [append_to_sheet, headerStep, h1, h2, h3, h4]
  · intro er h1 h2 h3 h4
    rcases h3 with h3 | h3
    · simp [append_to_sheet, headerStep, h1, h2, h3, h4]
    · by_cases hiso : (headerValues env.sheet).isNone = true
      · simp [append_to_sheet, headerStep, h1, h2, hiso, h3, h4]
      · simp only [Bool.not_eq_true] at hiso
        simp [append_to_sheet, headerStep, h1, h2, hiso, h4]
  · rintro ⟨e, he⟩
    by_contra hok
    simp only [Bool.not_eq_false] at hok
    rw [append_to_sheet_of_ok env hok a b c d] at he
    exact Except.noConfusion he
  · intro hok
    cases hsp : env.spreadsheetId with
    | none => exact ⟨.valueError, by simp [append_to_sheet, hsp]⟩
    | some sid =>
      cases hg : env.getHeaderErr with
      | some er =>
        have hhs : ∃ e, headerStep env = .error e := by
          cases er with
          | http s =>
            by_cases h4 : s = 403
            · exact ⟨.permissionError, by simp [headerStep, hg, h4]⟩
            · exact ⟨.http s, by simp [headerStep, hg, h4]⟩
          | network => exact ⟨.network, by simp [headerStep, hg]⟩
        obtain ⟨e, he⟩ := hhs
        exact ⟨e, by simp [append_to_sheet, hsp, he]⟩
      | none =>
        cases hd : env.dataAppendErr with
        | some er =>
          cases hhs : headerStep env with
          | error e => exact ⟨e, by simp [append_to_sheet, hsp, hhs]⟩
          | ok s1 => exact ⟨rawExc er, by simp [append_to_sheet, hsp, hhs, hd]⟩
        | none =>
          rw [appendOk, hsp, hg, hd] at hok
          simp only [Option.isSome_some, Option.isNone_none, Bool.true_and, Bool.and_true,
            Bool.or_eq_false_iff] at hok
          obtain ⟨hnn0, hha⟩ := hok
          have hnn : (headerValues env.sheet).isNone = true := by
            cases hb : (headerValues env.sheet).isNone with
            | true => rfl
            | false => rw [hb] at hnn0; simp at hnn0
          cases hha2 : env.headerAppendErr with
          | none =>
            rw [hha2] at hha
            simp at hha
          | some er =>
            have hhs : ∃ e, headerStep env = .error e := by
              cases er with
              | http s =>
                by_cases h4 : s = 403
                · exact ⟨.permissionError, by simp [headerStep, hg, hnn, hha2, h4]⟩
                · exact ⟨.http s, by simp [headerStep, hg, hnn, hha2, h4]⟩
              | network => exact ⟨.network, by simp [headerStep, hg, hnn, hha2]⟩
            obtain ⟨e, he⟩ := hhs
            exact ⟨e, by simp [append_to_sheet, hsp, he]⟩

theorem append_failure_propagation_witness :
    append_to_sheet sheetsEnvC7 "a" "b" "c" "d" = .error (rawExc (SheetsErr.http 403)) :=
  (append_failure_propagation sheetsEnvC7 "a" "b" "c" "d").2.2.2.1 (SheetsErr.http 403)
    (by decide) rfl (Or.inl (by decide)) rfl

/-- Witness environment for C4: the spec's two-message scenario, model
returning "Summary text". -/
def envC4 : PipelineEnv :=
  ⟨decodeW, ⟨[msgW1, msgW2], none, fun _ => none⟩,
   ⟨some "S", [], none, none, none, "t4"⟩, fun _ => .ok "Summary text", fun _ => true⟩

/-- C4: a successful run appends exactly one row whose `senders` and
`subjects` fields are the newline-joins and whose `bodies` field is the
blank-line-join of the per-message fields in fetch order; splitting the
fields back (on newlines, resp. dropping the blank lines) reproduces the
per-message lists, for fields that are themselves newline-free (bodies
additionally non-empty, which `extract_body` guarantees).  The witness
instantiates the spec's two-message scenario and exhibits the literal row
`{senders: "sender1\nsender2", subjects: "subj1\nsubj2",
bodies: "body1\n\nbody2", summary: "Summary text"}`. -/
theorem row_order_preserving (env : PipelineEnv)
    (hk : fetchedOf env ≠ []) (hok : appendOk env.sheets = true) :
    (process_unread_emails env).2.finalSheet =
      ensure_header env.sheets.sheet ++
        [[env.sheets.timestamp,
          String.intercalate "\n" (sendersOf env),
          String.intercalate "\n" (subjectsOf env),
          String.intercalate "\n\n" (bodiesOf env),
          summaryOf env]] ∧
    ((∀ s ∈ sendersOf env, '\n' ∉ s.data) →
      ((String.intercalate "\n" (sendersOf env)).data.splitOn '\n').map String.mk
        = sendersOf env) ∧
    ((∀ s ∈ subjectsOf env, '\n' ∉ s.data) →
      ((String.intercalate "\n" (subjectsOf env)).data.splitOn '\n').map String.mk
        = subjectsOf env) ∧
    ((∀ s ∈ bodiesOf env, '\n' ∉ s.data ∧ s ≠ "") →
      (((String.intercalate "\n\n" (bodiesOf env)).data.splitOn '\n').filter
        (fun c => !c.isEmpty)).map String.mk = bodiesOf env) := by
  have hse : sendersOf env ≠ [] := by
    rw [sendersOf]
    simp [hk]
  have hsu : subjectsOf env ≠ [] := by
    rw [subjectsOf]
    simp [hk]
  have hbo : bodiesOf env ≠ [] := by
    rw [bodiesOf]
    simp [hk]
  refine ⟨?_, ?_, ?_, ?_⟩
  · have h1 := process_of_nonempty env hk
    rw [append_to_sheet_of_ok env.sheets hok] at h1
    dsimp only at h1
    rw [h1]
  · intro h
    exact splitOn_newline_join (sendersOf env) hse h
  · intro h
    exact splitOn_newline_join (subjectsOf env) hsu h
  · intro h
    exact splitOn_blankline_join (bodiesOf env) hbo
      (fun s hs => (h s hs).1) (fun s hs => (h s hs).2)

theorem row_order_preserving_witness :
    fetchedOf envC4 ≠ [] ∧ appendOk envC4.sheets = true ∧
    (process_unread_emails envC4).2.finalSheet =
      [headerRow,
       ["t4", "sender1\nsender2", "subj1\nsubj2", "body1\n\nbody2", "Summary text"]] ∧
    (("sender1\nsender2" : String).data.splitOn '\n').map String.mk
      = ["sender1", "sender2"] ∧
    ((("body1\n\nbody2" : String).data.splitOn '\n').filter
      (fun c => !c.isEmpty)).map String.mk = ["body1", "body2"] := by
  have h := row_order_preserving envC4 (by decide) (by decide)
  refine ⟨by decide, by decide, h.1.trans (by decide), ?_, ?_⟩
  · exact (by decide : (("sender1\nsender2" : String) =
      String.intercalate "\n" (sendersOf envC4))) ▸ (h.2.1 (by decide)).trans (by decide)
  · exact (by decide : (("body1\n\nbody2" : String) =
      String.intercalate "\n\n" (bodiesOf envC4))) ▸ (h.2.2.2 (by decide)).trans (by decide)

end EmailSummarizer
